import Mathlib

/-!
Verification of the incremental listing cache and content pipeline of the
quarto-cli repository fragment.

Shallow embedding of:
- src/project/types/website/listing/website-listing.ts
  (listingSupplementalFiles, listingHtmlDependencies, markdownHandler,
   listingPostProcess, the listingPostProcessor closure);
- the puppeteer retry loops (withPuppeteerBrowserAndPage, inPuppeteer);
- src/core/jupyter/preserve.ts (restorePreservedHtml).

External collaborators (glob matching, path joins, the cache persistence
layer of website-listing-project.ts, the templating engine, the DOM
implementation, the feed generator) are not part of the source set; they
are either passed as function parameters or modelled from the spec, and
each such definition is marked in its doc comment.

JavaScript semantics that matter here are embedded explicitly: object
spread (later properties override earlier ones), `String.indexOf`
returning -1 on a miss, `String.slice` clamping of negative indices, and
`Object.keys` iteration in insertion order (a list of key/value pairs).
-/

/-! ## String search and JavaScript string primitives -/

/-- Index of the first occurrence of `needle` in `hay`, or `none`.
Mirror of JavaScript `String.indexOf` (hit case); `findSubstrIdx h [] = some 0`
just as `"x".indexOf("") = 0`. -/
def findSubstrIdx : List Char → List Char → Option Nat
  | [], needle => if needle.isPrefixOf [] then some 0 else none
  | c :: t, needle =>
      if needle.isPrefixOf (c :: t) then some 0
      else (findSubstrIdx t needle).map (fun i => i + 1)

/-- Whether `needle` occurs somewhere in `hay`. -/
def containsSub (hay needle : List Char) : Bool :=
  (findSubstrIdx hay needle).isSome

/-- JavaScript `String.indexOf`: the index of the first occurrence, or -1. -/
def jsIndexOf (hay needle : List Char) : Int :=
  match findSubstrIdx hay needle with
  | some i => (i : Int)
  | none => -1

/-- JavaScript slice-index resolution: negative indices count from the end
(clamped at 0), positive indices are clamped at the length. -/
def jsClampIndex (len : Nat) (i : Int) : Nat :=
  if i < 0 then ((len : Int) + i).toNat else min i.toNat len

/-- JavaScript `s.slice(start, stop)`. -/
def jsSliceFromTo (s : List Char) (start stop : Int) : List Char :=
  (s.take (jsClampIndex s.length stop)).drop (jsClampIndex s.length start)

/-- JavaScript `s.slice(start)`. -/
def jsSliceFrom (s : List Char) (start : Int) : List Char :=
  s.drop (jsClampIndex s.length start)

/-! ## src/core/jupyter/preserve.ts -/

/-- One iteration of the `Object.keys(preserve).forEach` loop body of
`restorePreservedHtml`:
`html = html.slice(0, keyLoc) + preserve[key] + html.slice(keyLoc + key.length)`
with `keyLoc = html.indexOf(key)`. -/
def restoreStep (html key val : List Char) : List Char :=
  let keyLoc := jsIndexOf html key
  jsSliceFromTo html 0 keyLoc ++ val ++
    jsSliceFrom html (keyLoc + (key.length : Int))

/-- `restorePreservedHtml(html, preserve?)` from src/core/jupyter/preserve.ts.
The `Record<string, string>` is embedded as its `Object.keys` entry list in
insertion order. -/
def restorePreservedHtml (html : String)
    (preserve : Option (List (String × String))) : String :=
  match preserve with
  | none => html
  | some ps =>
      String.mk (ps.foldl (fun acc kv => restoreStep acc kv.1.data kv.2.data) html.data)

/-- Replacement of the first occurrence of `key` by `val`, written as a plain
structural recursion: if `key` is a prefix, splice `val` in, otherwise keep the
head character and recurse. -/
def replaceFirst (key val : List Char) : List Char → List Char
  | [] => if key.isPrefixOf [] then val ++ List.drop key.length [] else []
  | c :: t =>
      if key.isPrefixOf (c :: t) then val ++ List.drop key.length (c :: t)
      else c :: replaceFirst key val t

/-- The stepwise occurrence condition for the sequential reading of
`restorePreservedHtml`: each key occurs in the string as it stands when that
key's turn comes (earlier substitutions already applied). -/
def keysOccurSequentially : List Char → List (String × String) → Bool
  | _, [] => true
  | h, kv :: rest =>
      containsSub h kv.1.data &&
        keysOccurSequentially (replaceFirst kv.1.data kv.2.data h) rest

/-- Worker for `replaceFirstOccurrencesSimultaneously`: walks the original
string position by position; where some entry's key has its first occurrence
in the ORIGINAL string, emits the fragment and skips the key. Fuel-based so
that it evaluates by kernel reduction; the initial fuel always suffices. -/
def simultReplaceGo (orig : List Char) (ps : List (String × String)) :
    Nat → Nat → List Char → List Char
  | 0, _, _ => []
  | _ + 1, _, [] => []
  | fuel + 1, i, c :: rest =>
      match ps.find? (fun kv =>
          !kv.1.data.isEmpty && (findSubstrIdx orig kv.1.data == some i)) with
      | some kv =>
          kv.2.data ++
            simultReplaceGo orig ps fuel (i + kv.1.data.length)
              ((c :: rest).drop kv.1.data.length)
      | none => c :: simultReplaceGo orig ps fuel (i + 1) rest

/-- Modelled from the spec: the simultaneous reading of the claim that
`restorePreservedHtml` "returns html with the first occurrence of each key
replaced by that key's preserved fragment" — every key's first occurrence is
located in the ORIGINAL html and all of those occurrences are replaced by
their fragments at once. Used only to compare the code against the claim. -/
def replaceFirstOccurrencesSimultaneously (html : String)
    (ps : List (String × String)) : String :=
  String.mk (simultReplaceGo html.data ps (html.data.length + 1) 0 html.data)

/-! ## Listing data model (website-listing-shared.ts is outside the source
set; the record shapes follow the spec's data model section) -/

/-- Listing type variants (string enum `ListingType` in the source). -/
inductive ListingType where
  | Default
  | Table
  | Grid
  | Custom
  deriving DecidableEq

/-- Modelled from the spec: a listing configuration record — identifier,
type (`none` embeds an unspecified type value, which the dispatch handles
through its `default:` branch), optional custom-template path, content glob
patterns. -/
structure Listing where
  id : String
  type : Option ListingType
  template : Option String
  contents : List String
  deriving DecidableEq

/-- Modelled from the spec: one indexed document's metadata record. -/
structure ListingItem where
  title : Option String
  path : Option String
  date : Option String
  categories : List String
  deriving DecidableEq

/-- Modelled from the spec: a resolved (Listing, Items) pair for one page. -/
structure ListingDescriptor where
  listing : Listing
  items : List ListingItem
  deriving DecidableEq

/-- Modelled from the spec: the target output format descriptor; opaque to
this layer, only passed through. -/
structure Format where
  formatName : String
  deriving DecidableEq

/-- Modelled from the spec: feed configuration; `type` is the requested feed
type property, `none` when the property is absent from the configuration
object. -/
structure ListingFeedOptions where
  type : Option String
  deriving DecidableEq

/-- Modelled from the spec: the options shared by all listings of one page.
`fieldCategories` is the truthiness of `options[kFieldCategories]`; `feed` is
`options[kFeed]` (`none` = absent). -/
structure ListingSharedOptions where
  fieldCategories : Bool
  feed : Option ListingFeedOptions
  deriving DecidableEq

/-- Modelled from the spec: the external templating engine's handler as
registered by `templateMarkdownHandler(templatePath, listing, items, format,
bundled)` — captured by its arguments. -/
structure MarkdownPipelineHandler where
  templatePath : String
  listing : Listing
  items : List ListingItem
  format : Format
  bundled : Bool
  deriving DecidableEq

/-! ## Project context and listing cache
(website-listing-project.ts is outside the source set) -/

/-- Modelled from the spec: the project context — root directory plus the
project listing cache, a mapping from listing-page path (relative to the
project root) to that page's glob patterns, embedded as a key/value list. -/
structure ProjectContext where
  dir : String
  listingCache : List (String × List String)
  deriving DecidableEq

/-- Modelled from the spec: `listingProjectData(project)` reads the persisted
cache (a missing or unreadable cache is embedded as the empty mapping). -/
def listingProjectData (project : ProjectContext) : List (String × List String) :=
  project.listingCache

/-- Modelled from the spec: `clearListingProjectData(project)` unconditionally
empties the cache. -/
def clearListingProjectData (project : ProjectContext) : ProjectContext :=
  { project with listingCache := [] }

/-- Modelled from the spec: `cacheListingProjectData` overwrites the cache
entry for `listingPagePath` with the union of the glob patterns of each
descriptor's `Listing.contents`; last write for a path wins. -/
def cacheListingProjectData (project : ProjectContext) (listingPagePath : String)
    (descriptors : List ListingDescriptor) : ProjectContext :=
  { project with
    listingCache :=
      (listingPagePath, (descriptors.map (fun d => d.listing.contents)).flatten) ::
        project.listingCache.filter (fun e => !(e.1 == listingPagePath)) }

/-- `listingMap[listingFile]` — the glob list recorded for a key. -/
def lookupListingMap (m : List (String × List String)) (k : String) : List String :=
  match m.find? (fun e => e.1 == k) with
  | some e => e.2
  | none => []

/-- Modelled from the spec: `join(dir, p)` of the external path library;
`join("", p) = p`. -/
def joinPath (dir p : String) : String :=
  if dir = "" then p else dir ++ "/" ++ p

/-- Modelled from the spec: `relative(dir, source)` of the external path
library — strips the directory prefix when present. -/
def relativePath (dir source : String) : String :=
  if dir = "" then source
  else if (dir ++ "/").data.isPrefixOf source.data then
    String.mk (source.data.drop (dir.data.length + 1))
  else source

/-- Modelled from the spec: the include side of `filterPaths(dir, files,
globs)` of core/path.ts — the changed files matched by at least one glob of
the entry's glob set. The glob primitive itself is the external collaborator
`matcher`. -/
def filterPathsInclude (matcher : String → String → Bool) (dir : String)
    (files globs : List String) : List String :=
  files.filter (fun f => globs.any (fun g => matcher g f))

/-- Modelled from the spec: the external glob-matching primitive, on character
lists; `*` matches any run of characters other than the path separator.
Fuel-based so that it evaluates by kernel reduction; every recursive call
shrinks `pattern.length + s.length`, so the initial fuel always suffices. -/
def globMatchFuel : Nat → List Char → List Char → Bool
  | 0, _, _ => false
  | _ + 1, [], s => s.isEmpty
  | fuel + 1, '*' :: ps, s =>
      globMatchFuel fuel ps s ||
        (match s with
         | [] => false
         | c :: s2 => decide (c ≠ '/') && globMatchFuel fuel ('*' :: ps) s2)
  | fuel + 1, p :: ps, s =>
      match s with
      | [] => false
      | c :: s2 => (p == c) && globMatchFuel fuel ps s2

/-- Modelled from the spec: the external glob-matching primitive on strings. -/
def globMatch (glob file : String) : Bool :=
  globMatchFuel (glob.data.length + file.data.length + 1) glob.data file.data

/-- lodash `uniqBy` called with no iteratee (= `uniq`): keeps the first
occurrence of each element, in order. Accumulator `seen` holds the elements
already emitted. -/
def uniqByAux : List String → List String → List String
  | _, [] => []
  | seen, x :: xs =>
      if x ∈ seen then uniqByAux seen xs else x :: uniqByAux (x :: seen) xs

/-- lodash `uniqBy(l)` as called in `listingSupplementalFiles`. -/
def uniqBy (l : List String) : List String :=
  uniqByAux [] l

/-! ## listingSupplementalFiles (website-listing.ts, lines 60-99) -/

/-- `listingSupplementalFiles(project, files, incremental)`. The external glob
primitive is the `matcher` parameter. The source mutates the project-scoped
cache through `clearListingProjectData`; the embedding returns the result
list together with the updated project. -/
def listingSupplementalFiles (matcher : String → String → Bool)
    (project : ProjectContext) (files : List String) (incremental : Bool) :
    List String × ProjectContext :=
  if incremental then
    let listingMap := listingProjectData project
    let listingFiles := listingMap.map Prod.fst
    let matching := listingFiles.filter (fun listingFile =>
      decide (0 < (filterPathsInclude matcher project.dir files
        (lookupListingMap listingMap listingFile)).length))
    if 0 < matching.length then
      (uniqBy (matching.map (fun listingRelativePath =>
        joinPath project.dir listingRelativePath)), project)
    else
      ([], project)
  else
    ([], clearListingProjectData project)

/-! ## markdownHandler (website-listing.ts, lines 219-274) -/

/-- `markdownHandler(format, listing, items)`. `existsSync` and
`resourcePath` are the external filesystem and bundled-resource collaborators;
a thrown `Error` is embedded as `Except.error` of its message. -/
def markdownHandler (existsSync : String → Bool) (resourcePath : String → String)
    (format : Format) (listing : Listing) (items : List ListingItem) :
    Except String MarkdownPipelineHandler :=
  match listing.type with
  | some ListingType.Table =>
      Except.ok ⟨resourcePath "projects/website/listing/listing-table.ejs.md",
        listing, items, format, true⟩
  | some ListingType.Grid =>
      Except.ok ⟨resourcePath "projects/website/listing/listing-grid.ejs.md",
        listing, items, format, true⟩
  | some ListingType.Custom =>
      match listing.template with
      | none =>
          Except.error
            "In order to use a listing of type custom, please provide the path to a template."
      | some template =>
          if existsSync template then
            Except.ok ⟨template, listing, items, format, false⟩
          else
            Except.error ("The template " ++ template ++ " can't be found.")
  | _ =>
      Except.ok ⟨resourcePath "projects/website/listing/listing-default.ejs.md",
        listing, items, format, true⟩

/-! ## DOM model and listingPostProcess (website-listing.ts, lines 276-297) -/

mutual
/-- Minimal document-tree model of the external DOM: an element with an id
attribute (\x22\x22 when absent), a tag name, and children. -/
inductive Element where
  | el (id : String) (tag : String) (children : ElementList)
/-- Children of an element, as a dedicated list type so that all tree
functions are plain mutual structural recursions. -/
inductive ElementList where
  | enil
  | econs (head : Element) (tail : ElementList)
end

/-- Concatenation of child lists (`appendChild` appends at the end). -/
def appendList : ElementList → ElementList → ElementList
  | ElementList.enil, ks => ks
  | ElementList.econs c cs, ks => ElementList.econs c (appendList cs ks)

mutual
/-- Whether the tree holds an element with the given id
(`doc.getElementById(t) !== null`). -/
def hasId : Element → String → Bool
  | Element.el i _ cs, t => (i == t) || hasIdList cs t
def hasIdList : ElementList → String → Bool
  | ElementList.enil, _ => false
  | ElementList.econs c cs, t => hasId c t || hasIdList cs t
end

mutual
/-- Appends `ks` as children of the first element (in document pre-order)
whose id is `t`; the Bool reports whether an element was found, so the
traversal stops at the first hit exactly as `getElementById` does. -/
def appendAtFirstId : Element → String → ElementList → Element × Bool
  | Element.el i tag cs, t, ks =>
      if i == t then (Element.el i tag (appendList cs ks), true)
      else
        let r := appendAtFirstIdList cs t ks
        (Element.el i tag r.1, r.2)
def appendAtFirstIdList : ElementList → String → ElementList → ElementList × Bool
  | ElementList.enil, _, _ => (ElementList.enil, false)
  | ElementList.econs c cs, t, ks =>
      let rc := appendAtFirstId c t ks
      if rc.2 then (ElementList.econs rc.1 cs, true)
      else
        let rs := appendAtFirstIdList cs t ks
        (ElementList.econs c rs.1, rs.2)
end

/-- `kMarginSidebarId` from website-listing.ts. -/
def kMarginSidebarId : String := "quarto-margin-sidebar"

/-- `listingPostProcess(doc, listingDescriptors, options, format)`.
`categorySidebar` is the external fragment builder returning
`{ headingEl, categoriesEl }`; the source then looks the sidebar container up
by id and appends both fragments through optional chaining
(`rightSidebar?.appendChild(...)`), so a missing container is a no-op. -/
def listingPostProcess
    (categorySidebar :
      Element → List ListingDescriptor → Format → ListingSharedOptions → Element × Element)
    (doc : Element) (listingDescriptors : List ListingDescriptor)
    (options : ListingSharedOptions) (format : Format) : Element :=
  if options.fieldCategories then
    let els := categorySidebar doc listingDescriptors format options
    if hasId doc kMarginSidebarId then
      (appendAtFirstId doc kMarginSidebarId
        (ElementList.econs els.1 (ElementList.econs els.2 ElementList.enil))).1
    else doc
  else doc

/-! ## listingPostProcessor closure (website-listing.ts, lines 170-208) -/

/-- The result record of an HTML post-processor. -/
structure HtmlPostProcessResult where
  resources : List String
  supporting : List String
  deriving DecidableEq

/-- The `listingPostProcessor` closure built inside `listingHtmlDependencies`.
`pipelineProcess` embeds `pipeline.processRenderedMarkdown`, `createFeed` the
external feed generator (returning the produced feed paths, or `none`). The
feed options passed to `createFeed` are built by the object spread
`{ type: "partial", ...options[kFeed] }`, in which the spread properties
override the literal ones. Besides the post-process result and the mutated
document, the embedding returns the feed options that were passed to
`createFeed` (`none` when no feed call was made). -/
def listingPostProcessor
    (pipelineProcess : Element → Element)
    (createFeed :
      Element → String → ProjectContext → List ListingDescriptor →
        ListingFeedOptions → Format → Option (List String))
    (categorySidebar :
      Element → List ListingDescriptor → Format → ListingSharedOptions → Element × Element)
    (source : String) (project : ProjectContext)
    (listingDescriptors : List ListingDescriptor)
    (options : ListingSharedOptions) (format : Format) (doc : Element) :
    HtmlPostProcessResult × Element × Option ListingFeedOptions :=
  let doc1 := pipelineProcess doc
  let doc2 := listingPostProcess categorySidebar doc1 listingDescriptors options format
  match options.feed with
  | some feedConfig =>
      let listingOptions : ListingFeedOptions :=
        { type := match feedConfig.type with
                  | some t => some t
                  | none => some "partial" }
      let feedAbsPaths := createFeed doc2 source project listingDescriptors listingOptions format
      let supporting := feedAbsPaths.getD []
      (⟨[], supporting⟩, doc2, some listingOptions)
  | none => (⟨[], []⟩, doc2, none)

/-! ## listingHtmlDependencies (website-listing.ts, lines 101-217) -/

/-- The format extras assembled by `listingHtmlDependencies`: the inline
initializer scripts (`templateJsScript` outputs), the markdown pipeline
handlers, and the script dependency paths. -/
structure ListingFormatExtras where
  scripts : List String
  handlers : List MarkdownPipelineHandler
  dependencyScripts : List String
  deriving DecidableEq

/-- `listingHtmlDependencies(source, project, format, temp, extras)`.
`readResult` is the outcome of the external `readListings` call;
`templateJsScript` is the external initializer generator, called as in the
source with `(listing.id, listing, items.length)`. Returns the extras
(`none` when the page declares no listings) together with the updated
project, whose cache `cacheListingProjectData` has extended — before handler
construction, as in the source. -/
def listingHtmlDependencies (existsSync : String → Bool)
    (resourcePath : String → String)
    (templateJsScript : String → Listing → Nat → String)
    (source : String) (project : ProjectContext) (format : Format)
    (readResult : List ListingDescriptor × ListingSharedOptions) :
    Except String (Option ListingFormatExtras × ProjectContext) :=
  let listingDescriptors := readResult.1
  if listingDescriptors.length = 0 then
    Except.ok (none, project)
  else
    let project2 :=
      cacheListingProjectData project (relativePath project.dir source) listingDescriptors
    match listingDescriptors.mapM
        (fun d => markdownHandler existsSync resourcePath format d.listing d.items) with
    | Except.error e => Except.error e
    | Except.ok markdownHandlers =>
        let jsPaths := [resourcePath "projects/website/listing/list.min.js",
                        resourcePath "projects/website/listing/quarto-listing.js"]
        let scripts := listingDescriptors.map
          (fun d => templateJsScript d.listing.id d.listing d.items.length)
        Except.ok (some ⟨scripts, markdownHandlers, jsPaths⟩, project2)

/-! ## Puppeteer retry loops (puppeteer.ts) -/

/-- The fixed allow-list of transient error signatures, shared by
`withPuppeteerBrowserAndPage` and `inPuppeteer`. -/
def allowedErrorMessages : List String :=
  ["Navigation failed because browser has disconnected!",
   "Navigation timeout of 30000 ms exceeded",
   "Evaluation failed: undefined"]

/-- The message thrown when the retry loop falls through. -/
def internalErrorMessage : String := "Internal Error - shouldn't have arrived here."

/-- Outcome of one attempt of the `withPuppeteerBrowserAndPage` body:
success, completion without a browser (`finished` stays false, no error), or
a thrown error with its message. -/
inductive AttemptOutcome where
  | success
  | noBrowser
  | failure (message : String)
  deriving DecidableEq

/-- The `while (attempts++ < maxAttempts)` loop of
`withPuppeteerBrowserAndPage`; `fuel` is the number of attempts still
permitted (including the current one), `idx` numbers the attempts so that
`trial` can model any failure sequence. A caught error is retried exactly
when its message is allow-listed and attempts remain
(`attempts < maxAttempts`); otherwise it is rethrown. Falling out of the
loop throws the internal error. -/
def withPuppeteerRetry (trial : Nat → AttemptOutcome) : Nat → Nat → Except String Unit
  | 0, _ => Except.error internalErrorMessage
  | fuel + 1, idx =>
      match trial idx with
      | AttemptOutcome.success => Except.ok ()
      | AttemptOutcome.noBrowser => withPuppeteerRetry trial fuel (idx + 1)
      | AttemptOutcome.failure msg =>
          if allowedErrorMessages.contains msg && decide (0 < fuel) then
            withPuppeteerRetry trial fuel (idx + 1)
          else
            Except.error msg

/-- `withPuppeteerBrowserAndPage` with `maxAttempts = 5`. -/
def withPuppeteerBrowserAndPage (trial : Nat → AttemptOutcome) : Except String Unit :=
  withPuppeteerRetry trial 5 0

/-- The identical retry loop of `inPuppeteer`, which returns the page
evaluation result on success. -/
def inPuppeteerRetry (trial : Nat → Except String Unit) : Nat → Nat → Except String Unit
  | 0, _ => Except.error internalErrorMessage
  | fuel + 1, idx =>
      match trial idx with
      | Except.ok v => Except.ok v
      | Except.error msg =>
          if allowedErrorMessages.contains msg && decide (0 < fuel) then
            inPuppeteerRetry trial fuel (idx + 1)
          else
            Except.error msg

/-- `inPuppeteer` with `maxAttempts = 5`. -/
def inPuppeteer (trial : Nat → Except String Unit) : Except String Unit :=
  inPuppeteerRetry trial 5 0

/-! ## Helper lemmas: substring search -/

theorem findSubstrIdx_bound (key : List Char) :
    ∀ (hay : List Char) (i : Nat), findSubstrIdx hay key = some i →
      i + key.length ≤ hay.length := by
  intro hay
  induction hay with
  | nil =>
      intro i h
      simp only [findSubstrIdx] at h
      split at h
      · rename_i hp
        have hk : key = [] := List.prefix_nil.mp (List.isPrefixOf_iff_prefix.mp hp)
        cases h
        simp [hk]
      · cases h
  | cons c t ih =>
      intro i h
      simp only [findSubstrIdx] at h
      split at h
      · rename_i hp
        cases h
        have := (List.isPrefixOf_iff_prefix.mp hp).length_le
        simpa using this
      · rcases Option.map_eq_some'.mp h with ⟨j, hj, hij⟩
        have hb := ih j hj
        subst hij
        simp only [List.length_cons]
        omega

theorem findSubstrIdx_isSome_of_isPrefixOf (hay key : List Char)
    (h : key.isPrefixOf hay = true) : (findSubstrIdx hay key).isSome = true := by
  cases hay <;> simp [findSubstrIdx, h]

theorem findSubstrIdx_isSome_cons (c : Char) (t key : List Char)
    (h : (findSubstrIdx t key).isSome = true) :
    (findSubstrIdx (c :: t) key).isSome = true := by
  simp only [findSubstrIdx]
  split
  · rfl
  · simpa using h

theorem containsSub_middle (a b c : List Char) : containsSub (a ++ (b ++ c)) b = true := by
  unfold containsSub
  induction a with
  | nil =>
      apply findSubstrIdx_isSome_of_isPrefixOf
      exact List.isPrefixOf_iff_prefix.mpr (List.prefix_append b c)
  | cons x xs ih =>
      exact findSubstrIdx_isSome_cons x _ b ih

theorem jsClampIndex_natCast (len n : Nat) : jsClampIndex len (n : Int) = min n len := by
  unfold jsClampIndex
  rw [if_neg (by omega)]
  have h : ((n : Int)).toNat = n := by omega
  rw [h]

/-! ## Helper lemmas: restoreStep refines replaceFirst -/

theorem restoreStep_eq_splice (hay key val : List Char) (i : Nat)
    (h : findSubstrIdx hay key = some i) :
    restoreStep hay key val = hay.take i ++ val ++ hay.drop (i + key.length) := by
  have hb : i + key.length ≤ hay.length := findSubstrIdx_bound key hay i h
  have h0 : jsClampIndex hay.length 0 = 0 := by simp [jsClampIndex]
  have h1 : jsClampIndex hay.length (i : Int) = i := by
    rw [jsClampIndex_natCast]
    omega
  have h3 : jsClampIndex hay.length ((i : Int) + (key.length : Int)) = i + key.length := by
    rw [← Nat.cast_add, jsClampIndex_natCast]
    omega
  simp only [restoreStep, jsIndexOf, h, jsSliceFromTo, jsSliceFrom, h0, h1, h3,
    List.drop_zero]

theorem replaceFirst_eq_splice (key val : List Char) :
    ∀ (hay : List Char) (i : Nat), findSubstrIdx hay key = some i →
      replaceFirst key val hay = hay.take i ++ val ++ hay.drop (i + key.length) := by
  intro hay
  induction hay with
  | nil =>
      intro i h
      simp only [findSubstrIdx] at h
      split at h
      · rename_i hp
        cases h
        simp [replaceFirst, hp]
      · cases h
  | cons c t ih =>
      intro i h
      simp only [findSubstrIdx] at h
      split at h
      · rename_i hp
        cases h
        simp [replaceFirst, hp]
      · rename_i hp
        rcases Option.map_eq_some'.mp h with ⟨j, hj, hij⟩
        subst hij
        simp only [replaceFirst, hp, if_false, Bool.false_eq_true, if_neg, List.take_succ_cons]
        rw [ih j hj]
        have : j + 1 + key.length = (j + key.length) + 1 := by omega
        rw [this, List.drop_succ_cons]
        simp

theorem restoreStep_eq_replaceFirst (hay key val : List Char)
    (h : containsSub hay key = true) :
    restoreStep hay key val = replaceFirst key val hay := by
  rcases Option.isSome_iff_exists.mp (by simpa [containsSub] using h) with ⟨i, hi⟩
  rw [restoreStep_eq_splice hay key val i hi, replaceFirst_eq_splice key val hay i hi]

theorem restore_foldl_eq_replaceFirst_foldl (ps : List (String × String)) :
    ∀ (h : List Char), keysOccurSequentially h ps = true →
      ps.foldl (fun acc kv => restoreStep acc kv.1.data kv.2.data) h
        = ps.foldl (fun acc kv => replaceFirst kv.1.data kv.2.data acc) h := by
  induction ps with
  | nil => intro h _; rfl
  | cons kv rest ih =>
      intro h hocc
      simp only [keysOccurSequentially, Bool.and_eq_true] at hocc
      simp only [List.foldl_cons]
      rw [restoreStep_eq_replaceFirst h kv.1.data kv.2.data hocc.1]
      exact ih _ hocc.2

/-! ## Claim C10 -/

/-- C10 counterexample: with `html = "ab"` and the preserve map
`{"a" ↦ "b", "b" ↦ "c"}` — whose keys are distinct and each occur in
`html` — the code returns `"cb"` (its substitutions are sequential, and the
fragment written for `"a"` creates an earlier occurrence of `"b"`), while the
claim's reading — each key's first occurrence in the original html replaced
by its fragment — gives `"bc"`. -/
theorem restorePreservedHtml_not_simultaneous :
    restorePreservedHtml "ab" (some [("a", "b"), ("b", "c")]) = "cb"
    ∧ replaceFirstOccurrencesSimultaneously "ab" [("a", "b"), ("b", "c")] = "bc"
    ∧ ("cb" : String) ≠ "bc"
    ∧ (["a", "b"] : List String).Nodup
    ∧ containsSub "ab".data "a".data = true
    ∧ containsSub "ab".data "b".data = true :=
  ⟨rfl, rfl, by decide, by decide, rfl, rfl⟩

/-- C10 (amended): `restorePreservedHtml(html, preserve)` returns `html`
unchanged when `preserve` is undefined; and for a preserve map processed in
key order such that each key occurs in the string as it stands at that key's
turn, the result is the SEQUENTIAL fold in which each step replaces the first
occurrence of that key (at that point) by the key's fragment — one
substitution per key, but an earlier fragment can move, create or destroy a
later key's first occurrence, so the simultaneous reading of the original
claim fails. -/
theorem restorePreservedHtml_sequential_first_occurrence (html : String)
    (ps : List (String × String))
    (hocc : keysOccurSequentially html.data ps = true) :
    restorePreservedHtml html none = html
    ∧ restorePreservedHtml html (some ps)
        = String.mk (ps.foldl (fun acc kv => replaceFirst kv.1.data kv.2.data acc) html.data) := by
  refine ⟨rfl, ?_⟩
  have hdef : restorePreservedHtml html (some ps)
      = String.mk (ps.foldl (fun acc kv => restoreStep acc kv.1.data kv.2.data) html.data) := rfl
  rw [hdef, restore_foldl_eq_replaceFirst_foldl ps html.data hocc]

/-- C10 witness: the amended theorem applied to a concrete document and a
one-entry preserve map. -/
theorem restorePreservedHtml_sequential_first_occurrence_witness :
    keysOccurSequentially "x PREKEY y".data [("PREKEY", "<div>")] = true
    ∧ restorePreservedHtml "x PREKEY y" (some [("PREKEY", "<div>")])
        = String.mk ([("PREKEY", "<div>")].foldl
            (fun acc kv => replaceFirst kv.1.data kv.2.data acc) "x PREKEY y".data) :=
  ⟨by decide,
   (restorePreservedHtml_sequential_first_occurrence "x PREKEY y" [("PREKEY", "<div>")]
      (by decide)).2⟩

/-! ## Helper lemmas: uniqBy and cache lookup -/

theorem mem_uniqByAux (y : String) :
    ∀ (l seen : List String), y ∈ uniqByAux seen l ↔ (y ∈ l ∧ y ∉ seen) := by
  intro l
  induction l with
  | nil => intro seen; simp [uniqByAux]
  | cons x xs ih =>
      intro seen
      simp only [uniqByAux]
      split
      · rename_i hx
        rw [ih seen]
        constructor
        · rintro ⟨h1, h2⟩
          exact ⟨List.mem_cons_of_mem x h1, h2⟩
        · rintro ⟨h1, h2⟩
          rcases List.mem_cons.mp h1 with rfl | h1
          · exact absurd hx h2
          · exact ⟨h1, h2⟩
      · rename_i hx
        rw [List.mem_cons, ih (x :: seen)]
        constructor
        · rintro (rfl | ⟨h1, h2⟩)
          · exact ⟨List.mem_cons_self _ _, hx⟩
          · refine ⟨List.mem_cons_of_mem x h1, fun hy => h2 (List.mem_cons_of_mem x hy)⟩
        · rintro ⟨h1, h2⟩
          by_cases hyx : y = x
          · exact Or.inl hyx
          · rcases List.mem_cons.mp h1 with rfl | h1
            · exact Or.inl rfl
            · refine Or.inr ⟨h1, fun hy => ?_⟩
              rcases List.mem_cons.mp hy with rfl | hy
              · exact hyx rfl
              · exact h2 hy

theorem nodup_uniqByAux : ∀ (l seen : List String), (uniqByAux seen l).Nodup := by
  intro l
  induction l with
  | nil => intro seen; simp [uniqByAux]
  | cons x xs ih =>
      intro seen
      simp only [uniqByAux]
      split
      · exact ih seen
      · refine List.nodup_cons.mpr ⟨fun hx => ?_, ih (x :: seen)⟩
        have := (mem_uniqByAux x xs (x :: seen)).mp hx
        exact this.2 (List.mem_cons_self x seen)

theorem mem_uniqBy (y : String) (l : List String) : y ∈ uniqBy l ↔ y ∈ l := by
  unfold uniqBy
  rw [mem_uniqByAux]
  simp

theorem nodup_uniqBy (l : List String) : (uniqBy l).Nodup :=
  nodup_uniqByAux l []

theorem find?_cache_entry (page : String) (globs : List String) :
    ∀ (m : List (String × List String)),
      (m.map Prod.fst).Nodup → (page, globs) ∈ m →
      m.find? (fun e => e.1 == page) = some (page, globs) := by
  intro m
  induction m with
  | nil => intro _ hmem; cases hmem
  | cons e rest ih =>
      intro hkeys hmem
      rcases List.mem_cons.mp hmem with heq | hmem2
      · subst heq
        exact List.find?_cons_of_pos _ (by simp)
      · have hkeys2 : e.1 ∉ rest.map Prod.fst ∧ (rest.map Prod.fst).Nodup := by
          rw [List.map_cons, List.nodup_cons] at hkeys
          exact hkeys
        have hne : ¬(e.1 == page) = true := by
          intro hbeq
          have hp : page ∈ rest.map Prod.fst := by
            simpa using List.mem_map_of_mem Prod.fst hmem2
          exact hkeys2.1 ((eq_of_beq hbeq) ▸ hp)
        have hstep : List.find? (fun x => x.1 == page) (e :: rest)
            = List.find? (fun x => x.1 == page) rest := by
          apply List.find?_cons_of_neg
          simpa using hne
        rw [hstep]
        exact ih hkeys2.2 hmem2

theorem lookupListingMap_eq (m : List (String × List String)) (page : String)
    (globs : List String) (hkeys : (m.map Prod.fst).Nodup)
    (hmem : (page, globs) ∈ m) : lookupListingMap m page = globs := by
  unfold lookupListingMap
  rw [find?_cache_entry page globs m hkeys hmem]

/-! ## Claim C1 -/

/-- C1: invalidation soundness. For every project cache state (a mapping, so
with pairwise-distinct keys), every changed-file set and every glob primitive,
an incremental `listingSupplementalFiles` call returns the path of every
cached listing page at least one of whose recorded glob patterns matches at
least one changed file — and the returned list has no duplicates. -/
theorem listingSupplementalFiles_superset_of_matching
    (matcher : String → String → Bool) (project : ProjectContext)
    (files : List String) (page : String) (globs : List String)
    (hkeys : (project.listingCache.map Prod.fst).Nodup)
    (hmem : (page, globs) ∈ project.listingCache)
    (f g : String) (hf : f ∈ files) (hg : g ∈ globs) (hmatch : matcher g f = true) :
    joinPath project.dir page ∈ (listingSupplementalFiles matcher project files true).1
    ∧ (listingSupplementalFiles matcher project files true).1.Nodup := by
  have hlookup : lookupListingMap project.listingCache page = globs :=
    lookupListingMap_eq project.listingCache page globs hkeys hmem
  have hfmem : f ∈ filterPathsInclude matcher project.dir files globs := by
    refine List.mem_filter.mpr ⟨hf, ?_⟩
    rw [List.any_eq_true]
    exact ⟨g, hg, hmatch⟩
  have hlen : 0 < (filterPathsInclude matcher project.dir files globs).length :=
    List.length_pos_of_mem hfmem
  have hpageMem : page ∈ project.listingCache.map Prod.fst := by
    simpa using List.mem_map_of_mem Prod.fst hmem
  have hmatching : page ∈ (project.listingCache.map Prod.fst).filter
      (fun listingFile =>
        decide (0 < (filterPathsInclude matcher project.dir files
          (lookupListingMap project.listingCache listingFile)).length)) := by
    refine List.mem_filter.mpr ⟨hpageMem, ?_⟩
    rw [decide_eq_true_eq, hlookup]
    exact hlen
  have hmlen : 0 < ((project.listingCache.map Prod.fst).filter
      (fun listingFile =>
        decide (0 < (filterPathsInclude matcher project.dir files
          (lookupListingMap project.listingCache listingFile)).length))).length :=
    List.length_pos_of_mem hmatching
  have hres : (listingSupplementalFiles matcher project files true).1
      = uniqBy (((project.listingCache.map Prod.fst).filter
          (fun listingFile =>
            decide (0 < (filterPathsInclude matcher project.dir files
              (lookupListingMap project.listingCache listingFile)).length))).map
        (fun listingRelativePath => joinPath project.dir listingRelativePath)) := by
    simp only [listingSupplementalFiles, listingProjectData, if_true]
    rw [if_pos hmlen]
  rw [hres]
  constructor
  · rw [mem_uniqBy]
    exact List.mem_map_of_mem _ hmatching
  · exact nodup_uniqBy _

/-- C1 witness: a concrete cache with one entry whose single glob matches the
single changed file. -/
theorem listingSupplementalFiles_superset_of_matching_witness :
    joinPath "proj" "blog/index.qmd"
      ∈ (listingSupplementalFiles (fun _ _ => true)
          ⟨"proj", [("blog/index.qmd", ["posts/*"])]⟩ ["posts/a.md"] true).1
    ∧ (listingSupplementalFiles (fun _ _ => true)
          ⟨"proj", [("blog/index.qmd", ["posts/*"])]⟩ ["posts/a.md"] true).1.Nodup :=
  listingSupplementalFiles_superset_of_matching (fun _ _ => true)
    ⟨"proj", [("blog/index.qmd", ["posts/*"])]⟩ ["posts/a.md"] "blog/index.qmd"
    ["posts/*"] (by decide) (by decide) "posts/a.md" "posts/*" (by decide) (by decide) rfl

/-! ## Claim C3 -/

/-- C3: clear resets. A non-incremental call unconditionally empties the
project listing cache and returns the empty list, and any immediately
following incremental call on the resulting project (with any changed-file
set and any glob primitive) also returns the empty list. -/
theorem listingSupplementalFiles_full_render_clears
    (matcher matcher2 : String → String → Bool) (project : ProjectContext)
    (files files2 : List String) :
    listingSupplementalFiles matcher project files false
      = ([], clearListingProjectData project)
    ∧ (listingSupplementalFiles matcher project files false).2.listingCache = []
    ∧ (listingSupplementalFiles matcher2
        (listingSupplementalFiles matcher project files false).2 files2 true).1 = [] :=
  ⟨rfl, rfl, rfl⟩

/-! ## Claim C6 -/

/-- C6: the spec scenario. With cache `{ "blog/index.qmd": ["posts/*.md"] }`,
an incremental call with changed files `["posts/a.md"]` returns
`["blog/index.qmd"]`, and an incremental call with changed files
`["readme.md"]` returns `[]` (project root embedded as `""`, under which
`join` is the identity on the relative path). -/
theorem listingSupplementalFiles_scenario :
    (listingSupplementalFiles globMatch
        ⟨"", [("blog/index.qmd", ["posts/*.md"])]⟩ ["posts/a.md"] true).1
      = ["blog/index.qmd"]
    ∧ (listingSupplementalFiles globMatch
        ⟨"", [("blog/index.qmd", ["posts/*.md"])]⟩ ["readme.md"] true).1
      = [] :=
  ⟨rfl, rfl⟩

/-! ## Claim C2 -/

/-- C2 counterexample: a feed configuration requesting type "full" reaches
`createFeed` with type "full", not "partial" — the object spread
`{ type: "partial", ...options[kFeed] }` makes "partial" only a default,
because spread properties override the literal ones. The `createFeed`
collaborator here reports the type it received as its produced path, and the
embedding's third component records the options that were passed to it. -/
theorem listingPostProcessor_full_feed_counterexample :
    (listingPostProcessor (fun d => d)
        (fun _ _ _ _ opts _ => some [opts.type.getD "absent"])
        (fun _ _ _ _ =>
          (Element.el "" "h3" ElementList.enil, Element.el "" "ul" ElementList.enil))
        "blog/index.qmd" ⟨"", []⟩ [] ⟨false, some ⟨some "full"⟩⟩ ⟨"html"⟩
        (Element.el "" "body" ElementList.enil)).2.2 = some ⟨some "full"⟩
    ∧ (listingPostProcessor (fun d => d)
        (fun _ _ _ _ opts _ => some [opts.type.getD "absent"])
        (fun _ _ _ _ =>
          (Element.el "" "h3" ElementList.enil, Element.el "" "ul" ElementList.enil))
        "blog/index.qmd" ⟨"", []⟩ [] ⟨false, some ⟨some "full"⟩⟩ ⟨"html"⟩
        (Element.el "" "body" ElementList.enil)).1.supporting = ["full"]
    ∧ (⟨some "full"⟩ : ListingFeedOptions) ≠ ⟨some "partial"⟩ :=
  ⟨rfl, rfl, by decide⟩

/-- C2 (amended): when the listing page's shared options carry a feed
configuration, the feed generation step runs with the feed type DEFAULTED to
"partial": a configuration that specifies no type is passed with type
"partial", while a specified type (such as "full") is preserved and passed
through unchanged; without feed configuration no feed call is made and no
supporting feed artifacts are produced. -/
theorem listingPostProcessor_feed_type_defaulted
    (pipelineProcess : Element → Element)
    (createFeed :
      Element → String → ProjectContext → List ListingDescriptor →
        ListingFeedOptions → Format → Option (List String))
    (categorySidebar :
      Element → List ListingDescriptor → Format → ListingSharedOptions → Element × Element)
    (source : String) (project : ProjectContext)
    (listingDescriptors : List ListingDescriptor)
    (options : ListingSharedOptions) (format : Format) (doc : Element)
    (feedConfig : ListingFeedOptions) :
    (options.feed = some feedConfig →
      (listingPostProcessor pipelineProcess createFeed categorySidebar source project
          listingDescriptors options format doc).2.2
        = some ⟨some (feedConfig.type.getD "partial")⟩)
    ∧ (options.feed = none →
      (listingPostProcessor pipelineProcess createFeed categorySidebar source project
          listingDescriptors options format doc).2.2 = none
      ∧ (listingPostProcessor pipelineProcess createFeed categorySidebar source project
          listingDescriptors options format doc).1.supporting = []) := by
  constructor
  · intro hfeed
    simp only [listingPostProcessor, hfeed]
    cases feedConfig.type <;> rfl
  · intro hfeed
    simp [listingPostProcessor, hfeed]

/-- C2 witness: a feed configuration without a type is passed to the feed
generator with type "partial". -/
theorem listingPostProcessor_feed_type_defaulted_witness :
    (listingPostProcessor (fun d => d) (fun _ _ _ _ _ _ => none)
        (fun _ _ _ _ =>
          (Element.el "" "h3" ElementList.enil, Element.el "" "ul" ElementList.enil))
        "blog/index.qmd" ⟨"", []⟩ [] ⟨false, some ⟨none⟩⟩ ⟨"html"⟩
        (Element.el "" "body" ElementList.enil)).2.2
      = some ⟨some ((none : Option String).getD "partial")⟩ :=
  (listingPostProcessor_feed_type_defaulted (fun d => d) (fun _ _ _ _ _ _ => none)
      (fun _ _ _ _ =>
        (Element.el "" "h3" ElementList.enil, Element.el "" "ul" ElementList.enil))
      "blog/index.qmd" ⟨"", []⟩ [] ⟨false, some ⟨none⟩⟩ ⟨"html"⟩
      (Element.el "" "body" ElementList.enil) ⟨none⟩).1 rfl

/-! ## Claim C4 -/

/-- C4: dispatch determinism. A listing of type Default (or with an
unspecified type), Grid or Table resolves to its fixed bundled template path
irrespective of the listing's identifier, template field, content globs or
items; a Custom listing with an unset template, or with a template path that
does not exist, yields a configuration error — `markdownHandler` returns
`Except.error`, so no template handler is constructed and no conversion is
attempted. -/
theorem markdownHandler_dispatch_deterministic
    (existsSync : String → Bool) (resourcePath : String → String) (format : Format)
    (id : String) (tmpl : Option String) (contents : List String)
    (items : List ListingItem) (t : String) :
    markdownHandler existsSync resourcePath format ⟨id, some ListingType.Table, tmpl, contents⟩ items
      = Except.ok ⟨resourcePath "projects/website/listing/listing-table.ejs.md",
          ⟨id, some ListingType.Table, tmpl, contents⟩, items, format, true⟩
    ∧ markdownHandler existsSync resourcePath format ⟨id, some ListingType.Grid, tmpl, contents⟩ items
      = Except.ok ⟨resourcePath "projects/website/listing/listing-grid.ejs.md",
          ⟨id, some ListingType.Grid, tmpl, contents⟩, items, format, true⟩
    ∧ markdownHandler existsSync resourcePath format ⟨id, some ListingType.Default, tmpl, contents⟩ items
      = Except.ok ⟨resourcePath "projects/website/listing/listing-default.ejs.md",
          ⟨id, some ListingType.Default, tmpl, contents⟩, items, format, true⟩
    ∧ markdownHandler existsSync resourcePath format ⟨id, none, tmpl, contents⟩ items
      = Except.ok ⟨resourcePath "projects/website/listing/listing-default.ejs.md",
          ⟨id, none, tmpl, contents⟩, items, format, true⟩
    ∧ markdownHandler existsSync resourcePath format ⟨id, some ListingType.Custom, none, contents⟩ items
      = Except.error
          "In order to use a listing of type custom, please provide the path to a template."
    ∧ (existsSync t = false →
        markdownHandler existsSync resourcePath format
            ⟨id, some ListingType.Custom, some t, contents⟩ items
          = Except.error ("The template " ++ t ++ " can't be found.")) := by
  refine ⟨rfl, rfl, rfl, rfl, rfl, fun h => ?_⟩
  simp [markdownHandler, h]

/-- C4 witness: the Custom-with-missing-template conjunct applied to a
concrete listing under a filesystem on which no path exists. -/
theorem markdownHandler_dispatch_deterministic_witness :
    markdownHandler (fun _ => false) (fun p => p) ⟨"html"⟩
        ⟨"listing-1", some ListingType.Custom, some "gallery.ejs.md", []⟩ []
      = Except.error ("The template " ++ "gallery.ejs.md" ++ " can't be found.") :=
  (markdownHandler_dispatch_deterministic (fun _ => false) (fun p => p) ⟨"html"⟩
      "listing-1" (some "gallery.ejs.md") [] [] "gallery.ejs.md").2.2.2.2.2 rfl

/-! ## Claim C5 -/

/-- C5 counterexample: for the Custom listing with identifier "mylisting" and
non-existent template "tmpl.ejs", the raised error message names the template
path but NOT the listing identifier ("mylisting" does not occur in it); and
for an unset template the raised error message is a fixed sentence naming
neither a path nor the identifier. -/
theorem markdownHandler_error_omits_listing_id :
    markdownHandler (fun _ => false) (fun p => p) ⟨"html"⟩
        ⟨"mylisting", some ListingType.Custom, some "tmpl.ejs", []⟩ []
      = Except.error "The template tmpl.ejs can't be found."
    ∧ containsSub "The template tmpl.ejs can't be found.".data "mylisting".data = false
    ∧ markdownHandler (fun _ => false) (fun p => p) ⟨"html"⟩
        ⟨"mylisting", some ListingType.Custom, none, []⟩ []
      = Except.error
          "In order to use a listing of type custom, please provide the path to a template."
    ∧ containsSub
        "In order to use a listing of type custom, please provide the path to a template.".data
        "mylisting".data = false :=
  ⟨rfl, by decide, rfl, by decide⟩

/-- C5 (amended): for every listing of type Custom whose template path does
not exist, the raised error names the offending template path (the path
occurs verbatim in the message); for an unset template the error is a fixed
message asking for a template path. Neither error names the listing's
identifier. -/
theorem markdownHandler_error_names_template_path
    (existsSync : String → Bool) (resourcePath : String → String) (format : Format)
    (id : String) (contents : List String) (items : List ListingItem) (t : String)
    (hex : existsSync t = false) :
    markdownHandler existsSync resourcePath format
        ⟨id, some ListingType.Custom, some t, contents⟩ items
      = Except.error ("The template " ++ t ++ " can't be found.")
    ∧ containsSub ("The template " ++ t ++ " can't be found.").data t.data = true
    ∧ markdownHandler existsSync resourcePath format
        ⟨id, some ListingType.Custom, none, contents⟩ items
      = Except.error
          "In order to use a listing of type custom, please provide the path to a template." := by
  refine ⟨by simp [markdownHandler, hex], ?_, rfl⟩
  have hdata : ("The template " ++ t ++ " can't be found.").data
      = "The template ".data ++ (t.data ++ " can't be found.".data) := by
    simp [String.data_append]
  rw [hdata]
  exact containsSub_middle _ _ _

/-- C5 witness: the amended theorem at a concrete missing template path. -/
theorem markdownHandler_error_names_template_path_witness :
    markdownHandler (fun _ => false) (fun p => p) ⟨"html"⟩
        ⟨"l1", some ListingType.Custom, some "missing.md", []⟩ []
      = Except.error ("The template " ++ "missing.md" ++ " can't be found.")
    ∧ containsSub ("The template " ++ "missing.md" ++ " can't be found.").data
        "missing.md".data = true
    ∧ markdownHandler (fun _ => false) (fun p => p) ⟨"html"⟩
        ⟨"l1", some ListingType.Custom, none, []⟩ []
      = Except.error
          "In order to use a listing of type custom, please provide the path to a template." :=
  markdownHandler_error_names_template_path (fun _ => false) (fun p => p) ⟨"html"⟩
    "l1" [] [] "missing.md" rfl

/-! ## Claim C8 -/

/-- C8: category-sidebar no-op. For every document in which no element has
the well-known sidebar container id "quarto-margin-sidebar",
`listingPostProcess` returns the document unchanged — nothing is appended,
no error is raised, and the rest of the document is untouched — whatever the
descriptors, options, format and the external category fragment builder. -/
theorem listingPostProcess_missing_sidebar_noop
    (categorySidebar :
      Element → List ListingDescriptor → Format → ListingSharedOptions → Element × Element)
    (doc : Element) (listingDescriptors : List ListingDescriptor)
    (options : ListingSharedOptions) (format : Format)
    (h : hasId doc kMarginSidebarId = false) :
    listingPostProcess categorySidebar doc listingDescriptors options format = doc := by
  simp [listingPostProcess, h]

/-- C8 witness: a concrete document without the sidebar container, with
category processing enabled. -/
theorem listingPostProcess_missing_sidebar_noop_witness :
    listingPostProcess
        (fun _ _ _ _ =>
          (Element.el "cat-heading" "h3" ElementList.enil,
           Element.el "cat-list" "ul" ElementList.enil))
        (Element.el "quarto-content" "main"
          (ElementList.econs (Element.el "title-block" "header" ElementList.enil)
            ElementList.enil))
        [] ⟨true, none⟩ ⟨"html"⟩
      = Element.el "quarto-content" "main"
          (ElementList.econs (Element.el "title-block" "header" ElementList.enil)
            ElementList.enil) :=
  listingPostProcess_missing_sidebar_noop _ _ _ _ _ (by simp [hasId, hasIdList, kMarginSidebarId])

/-! ## Claim C9 -/

/-- C9: for every source page whose metadata yields zero listing descriptors,
`listingHtmlDependencies` returns undefined and performs no cache write: the
returned project is exactly the input project (in particular its listing
cache is untouched), and no extras — handlers, scripts or dependencies — are
produced for the page. -/
theorem listingHtmlDependencies_no_descriptors_no_write
    (existsSync : String → Bool) (resourcePath : String → String)
    (templateJsScript : String → Listing → Nat → String)
    (source : String) (project : ProjectContext) (format : Format)
    (options : ListingSharedOptions) :
    listingHtmlDependencies existsSync resourcePath templateJsScript source project format
        ([], options)
      = Except.ok (none, project) :=
  rfl

/-! ## Claim C7 -/

theorem withPuppeteerRetry_congr (trial trial2 : Nat → AttemptOutcome) :
    ∀ (fuel idx : Nat), (∀ j, idx ≤ j → j < idx + fuel → trial j = trial2 j) →
      withPuppeteerRetry trial fuel idx = withPuppeteerRetry trial2 fuel idx := by
  intro fuel
  induction fuel with
  | zero => intro idx _; rfl
  | succ n ih =>
      intro idx hag
      have h0 : trial idx = trial2 idx := hag idx le_rfl (by omega)
      have hrest : ∀ j, idx + 1 ≤ j → j < idx + 1 + n → trial j = trial2 j := by
        intro j hj1 hj2
        exact hag j (by omega) (by omega)
      cases htr : trial2 idx with
      | success => simp [withPuppeteerRetry, h0, htr]
      | noBrowser =>
          simp only [withPuppeteerRetry, h0, htr]
          exact ih (idx + 1) hrest
      | failure msg2 =>
          simp only [withPuppeteerRetry, h0, htr]
          by_cases hc : (allowedErrorMessages.contains msg2 && decide (0 < n)) = true
          · rw [if_pos hc, if_pos hc]
            exact ih (idx + 1) hrest
          · rw [if_neg hc, if_neg hc]

/-- C7: the browser-automation retry policy of `withPuppeteerBrowserAndPage`
and `inPuppeteer`. (1) An error whose message is not in the fixed allow-list
is rethrown from the first attempt without any retry. (2) An allow-listed
error triggers an immediate retry. (3) When all five attempts fail with
allow-listed messages, the fifth attempt's underlying error is rethrown
rather than swallowed. (4) At most 5 attempts are ever made: the outcome
depends only on the first five trials. (5) and (6): the first and third
properties for `inPuppeteer`'s identical loop. -/
theorem puppeteer_retry_policy
    (trial trial2 : Nat → AttemptOutcome) (trialP : Nat → Except String Unit)
    (m : Nat → String) (msg : String) :
    (trial 0 = AttemptOutcome.failure msg → msg ∉ allowedErrorMessages →
      withPuppeteerBrowserAndPage trial = Except.error msg)
    ∧ (trial 0 = AttemptOutcome.failure msg → msg ∈ allowedErrorMessages →
      trial 1 = AttemptOutcome.success →
      withPuppeteerBrowserAndPage trial = Except.ok ())
    ∧ ((∀ i, i < 5 → trial i = AttemptOutcome.failure (m i)) →
      (∀ i, i < 4 → m i ∈ allowedErrorMessages) →
      withPuppeteerBrowserAndPage trial = Except.error (m 4))
    ∧ ((∀ i, i < 5 → trial i = trial2 i) →
      withPuppeteerBrowserAndPage trial = withPuppeteerBrowserAndPage trial2)
    ∧ (trialP 0 = Except.error msg → msg ∉ allowedErrorMessages →
      inPuppeteer trialP = Except.error msg)
    ∧ ((∀ i, i < 5 → trialP i = Except.error (m i)) →
      (∀ i, i < 4 → m i ∈ allowedErrorMessages) →
      inPuppeteer trialP = Except.error (m 4)) := by
  refine ⟨?_, ?_, ?_, ?_, ?_, ?_⟩
  · intro h0 hna
    simp [withPuppeteerBrowserAndPage, withPuppeteerRetry, h0, hna]
  · intro h0 ha h1
    simp [withPuppeteerBrowserAndPage, withPuppeteerRetry, h0, ha, h1]
  · intro hf ha
    have e0 := hf 0 (by omega)
    have e1 := hf 1 (by omega)
    have e2 := hf 2 (by omega)
    have e3 := hf 3 (by omega)
    have e4 := hf 4 (by omega)
    have a0 := ha 0 (by omega)
    have a1 := ha 1 (by omega)
    have a2 := ha 2 (by omega)
    have a3 := ha 3 (by omega)
    simp [withPuppeteerBrowserAndPage, withPuppeteerRetry, e0, e1, e2, e3, e4, a0, a1, a2, a3]
  · intro hag
    exact withPuppeteerRetry_congr trial trial2 5 0 (fun j h1 h2 => hag j (by omega))
  · intro h0 hna
    simp [inPuppeteer, inPuppeteerRetry, h0, hna]
  · intro hf ha
    have e0 := hf 0 (by omega)
    have e1 := hf 1 (by omega)
    have e2 := hf 2 (by omega)
    have e3 := hf 3 (by omega)
    have e4 := hf 4 (by omega)
    have a0 := ha 0 (by omega)
    have a1 := ha 1 (by omega)
    have a2 := ha 2 (by omega)
    have a3 := ha 3 (by omega)
    simp [inPuppeteer, inPuppeteerRetry, e0, e1, e2, e3, e4, a0, a1, a2, a3]

/-- C7 witness: concrete failure sequences for each part of the retry-policy
theorem — a non-allow-listed error is fatal at once, an allow-listed error is
retried and the second attempt succeeds, five allow-listed failures rethrow
the fifth error, trials agreeing on the first five attempts give the same
outcome, and the two `inPuppeteer` analogues. -/
theorem puppeteer_retry_policy_witness :
    withPuppeteerBrowserAndPage (fun _ => AttemptOutcome.failure "boom")
      = Except.error "boom"
    ∧ withPuppeteerBrowserAndPage
        (fun i => if i = 0 then AttemptOutcome.failure "Evaluation failed: undefined"
                  else AttemptOutcome.success)
      = Except.ok ()
    ∧ withPuppeteerBrowserAndPage
        (fun _ => AttemptOutcome.failure "Navigation timeout of 30000 ms exceeded")
      = Except.error "Navigation timeout of 30000 ms exceeded"
    ∧ withPuppeteerBrowserAndPage
        (fun i => if i < 5 then AttemptOutcome.noBrowser else AttemptOutcome.success)
      = withPuppeteerBrowserAndPage
          (fun i => if i < 5 then AttemptOutcome.noBrowser else AttemptOutcome.failure "late")
    ∧ inPuppeteer (fun _ => Except.error "boom") = Except.error "boom"
    ∧ inPuppeteer (fun _ => Except.error "Evaluation failed: undefined")
      = Except.error "Evaluation failed: undefined" := by
  refine ⟨?_, ?_, ?_, ?_, ?_, ?_⟩
  · exact (puppeteer_retry_policy (fun _ => AttemptOutcome.failure "boom")
      (fun _ => AttemptOutcome.success) (fun _ => Except.ok ()) (fun _ => "boom") "boom").1
      rfl (by decide)
  · exact (puppeteer_retry_policy
      (fun i => if i = 0 then AttemptOutcome.failure "Evaluation failed: undefined"
                else AttemptOutcome.success)
      (fun _ => AttemptOutcome.success) (fun _ => Except.ok ()) (fun _ => "m")
      "Evaluation failed: undefined").2.1 rfl (by decide) rfl
  · exact (puppeteer_retry_policy
      (fun _ => AttemptOutcome.failure "Navigation timeout of 30000 ms exceeded")
      (fun _ => AttemptOutcome.success) (fun _ => Except.ok ())
      (fun _ => "Navigation timeout of 30000 ms exceeded") "x").2.2.1
      (fun i _ => rfl) (fun i _ => by decide)
  · exact (puppeteer_retry_policy
      (fun i => if i < 5 then AttemptOutcome.noBrowser else AttemptOutcome.success)
      (fun i => if i < 5 then AttemptOutcome.noBrowser else AttemptOutcome.failure "late")
      (fun _ => Except.ok ()) (fun _ => "m") "x").2.2.2.1
      (fun i hi => by simp [hi])
  · exact (puppeteer_retry_policy (fun _ => AttemptOutcome.success)
      (fun _ => AttemptOutcome.success) (fun _ => Except.error "boom")
      (fun _ => "boom") "boom").2.2.2.2.1 rfl (by decide)
  · exact (puppeteer_retry_policy (fun _ => AttemptOutcome.success)
      (fun _ => AttemptOutcome.success) (fun _ => Except.error "Evaluation failed: undefined")
      (fun _ => "Evaluation failed: undefined") "x").2.2.2.2.2
      (fun i _ => rfl) (fun i _ => by decide)
